import Mathlib

/-!
Shallow embedding of `src/renderer/cursor_renderer.rs` (neovide cursor
renderer): the blink-timing state machine (`BlinkStatus`), the per-corner
smear animation (`Corner::update`), the shape geometry
(`CursorRenderer::set_cursor_shape`) and the per-frame draw orchestration
(`CursorRenderer::draw`).

Skia `f32` points are idealised as pairs of real numbers; `Instant` is a
monotone millisecond counter passed in explicitly as `now`; canvas calls are
reified as a trace of `CanvasOp` values.
-/

namespace Neovide

open scoped Classical

/-- Skia `Point`, idealised over the reals. -/
structure Point where
  x : ℝ
  y : ℝ

noncomputable def Point.add (p q : Point) : Point := ⟨p.x + q.x, p.y + q.y⟩

noncomputable def Point.sub (p q : Point) : Point := ⟨p.x - q.x, p.y - q.y⟩

noncomputable def Point.smul (p : Point) (s : ℝ) : Point := ⟨p.x * s, p.y * s⟩

noncomputable def Point.dot (p q : Point) : ℝ := p.x * q.x + p.y * q.y

/-- Skia `Point::length`: the euclidean norm. -/
noncomputable def Point.length (p : Point) : ℝ := Real.sqrt (p.x * p.x + p.y * p.y)

/-- Skia `Point::is_zero`: both coordinates are zero. -/
def Point.is_zero (p : Point) : Prop := p.x = 0 ∧ p.y = 0

noncomputable def AVERAGE_MOTION_PERCENTAGE : ℝ := 0.7

noncomputable def MOTION_PERCENTAGE_SPREAD : ℝ := 0.5

def DEFAULT_CELL_PERCENTAGE : ℚ := 1 / 8

noncomputable def STANDARD_CORNERS : Fin 4 → ℝ × ℝ
  | 0 => (-0.5, -0.5)
  | 1 => (0.5, -0.5)
  | 2 => (0.5, 0.5)
  | 3 => (-0.5, 0.5)

inductive CursorShape where
  | Block
  | Vertical
  | Horizontal
deriving DecidableEq

/-- Modelled from the spec: the `Cursor` snapshot type lives in the editor
module, which is not part of this source tree.  Spec §3 lists the fields the
core consumes: grid `position`, `shape`, optional `cell_percentage` ratio,
the three optional blink durations in milliseconds, and `enabled`.  Equality
is structural (the Rust type derives `PartialEq`). -/
structure Cursor where
  position : ℕ × ℕ
  shape : CursorShape
  cell_percentage : Option ℚ
  blinkwait : Option ℕ
  blinkon : Option ℕ
  blinkoff : Option ℕ
  enabled : Bool
deriving DecidableEq

/-- Modelled from the spec: the default-colors record supplied by the external
theme, carrying a foreground and a background color (abstract color ids). -/
structure Colors where
  foreground : ℕ
  background : ℕ
deriving DecidableEq

/-- Modelled from the spec: `Cursor::background` resolves the cursor's
background against the external default theme ("fill it with the background
color resolved against the default theme"). -/
def Cursor.background (_c : Cursor) (default_colors : Colors) : ℕ :=
  default_colors.background

/-- Modelled from the spec: `Cursor::foreground` resolves the cursor's
foreground against the external default theme. -/
def Cursor.foreground (_c : Cursor) (default_colors : Colors) : ℕ :=
  default_colors.foreground

inductive BlinkState where
  | Waiting
  | On
  | Off
deriving DecidableEq

structure BlinkStatus where
  state : BlinkState
  last_transition : ℕ
  previous_cursor : Option Cursor
deriving DecidableEq

def BlinkStatus.new (now : ℕ) : BlinkStatus :=
  { state := BlinkState.Waiting
    last_transition := now
    previous_cursor := none }

/-- `BlinkStatus::update_status`.  `Instant::now()` is modelled by the `now`
argument (milliseconds); `Duration` comparison `Instant::now() -
self.last_transition > delay` becomes `now - last_transition > d` over ℕ. -/
def BlinkStatus.update_status (s : BlinkStatus) (now : ℕ) (new_cursor : Cursor) :
    BlinkStatus × Bool :=
  let s1 : BlinkStatus :=
    if s.previous_cursor = none ∨ some new_cursor ≠ s.previous_cursor then
      { previous_cursor := some new_cursor
        last_transition := now
        state :=
          if new_cursor.blinkwait.isSome ∧ new_cursor.blinkwait ≠ some 0 then
            BlinkState.Waiting
          else
            BlinkState.On }
    else s
  if new_cursor.blinkwait = some 0 ∨ new_cursor.blinkoff = some 0 ∨
      new_cursor.blinkon = some 0 then
    (s1, true)
  else
    let delay : Option ℕ :=
      (match s1.state with
        | BlinkState.Waiting => new_cursor.blinkwait
        | BlinkState.Off => new_cursor.blinkoff
        | BlinkState.On => new_cursor.blinkon).filter (fun millis => 0 < millis)
    let s2 : BlinkStatus :=
      if (delay.map (fun d => decide (now - s1.last_transition > d))).getD false then
        { s1 with
          state :=
            match s1.state with
            | BlinkState.Waiting => BlinkState.On
            | BlinkState.On => BlinkState.Off
            | BlinkState.Off => BlinkState.On
          last_transition := now }
      else s1
    (s2,
     match s2.state with
     | BlinkState.Waiting | BlinkState.Off => false
     | BlinkState.On => true)

/-- `Corner`: one of the four animated cursor corners. -/
structure Corner where
  current_position : Point
  relative_position : Point

noncomputable def Corner.new (relative_position : Point) : Corner :=
  { current_position := ⟨0, 0⟩
    relative_position := relative_position }

/-- The local `relative_scaled_position` of `Corner::update`: the relative
offset scaled elementwise by the font (cell) dimensions. -/
noncomputable def Corner.relative_scaled_position (c : Corner) (font_dimensions : Point) :
    Point :=
  ⟨c.relative_position.x * font_dimensions.x, c.relative_position.y * font_dimensions.y⟩

/-- The local `corner_destination` of `Corner::update`: the corner's target. -/
noncomputable def Corner.corner_destination (c : Corner) (font_dimensions destination : Point) :
    Point :=
  destination.add (c.relative_scaled_position font_dimensions)

/-- The local `delta` of `Corner::update`: target minus current position. -/
noncomputable def Corner.delta (c : Corner) (font_dimensions destination : Point) : Point :=
  (c.corner_destination font_dimensions destination).sub c.current_position

/-- The local `motion_scale` of `Corner::update`:
`delta.dot(relative_scaled_position) / delta.length() / font_dimensions.length()`. -/
noncomputable def Corner.motion_scale (c : Corner) (font_dimensions destination : Point) : ℝ :=
  (c.delta font_dimensions destination).dot (c.relative_scaled_position font_dimensions) /
    (c.delta font_dimensions destination).length / font_dimensions.length

/-- The local `motion_percentage` of `Corner::update`. -/
noncomputable def Corner.motion_percentage (c : Corner) (font_dimensions destination : Point) :
    ℝ :=
  c.motion_scale font_dimensions destination * MOTION_PERCENTAGE_SPREAD +
    AVERAGE_MOTION_PERCENTAGE

/-- `Corner::update`.  Returns the updated corner together with the returned
boolean, embedded as the proposition `delta.length() > 0.001`, where `delta`
is the binding from line 95 of the source (the inner re-binding of `delta` is
scoped to the `if` block and does not reach the return expression). -/
noncomputable def Corner.update (c : Corner) (font_dimensions destination : Point) :
    Corner × Prop :=
  let delta := c.delta font_dimensions destination
  let c' : Corner :=
    if delta.length > 0 then
      { c with
        current_position :=
          c.current_position.add
            ((c.delta font_dimensions destination).smul
              (c.motion_percentage font_dimensions destination)) }
    else c
  (c', delta.length > 0.001)

/-- Single-delta form of the update, written after the spec's words: advance
`current_position += delta * percentage` where `delta = target −
current_position` is computed once from the single `target`. -/
noncomputable def Corner.updateSingleDelta (c : Corner) (font_dimensions destination : Point) :
    Corner × Prop :=
  let target := c.corner_destination font_dimensions destination
  let delta := target.sub c.current_position
  (if delta.length > 0 then
     { c with
       current_position :=
         c.current_position.add
           (delta.smul (c.motion_percentage font_dimensions destination)) }
   else c,
   delta.length > 0.001)

structure CursorRenderer where
  corners : Fin 4 → Corner
  blink_status : BlinkStatus

/-- `CursorRenderer::set_cursor_shape`: rebuild each corner's
`relative_position` from `STANDARD_CORNERS`, keeping `current_position`. -/
noncomputable def CursorRenderer.set_cursor_shape (r : CursorRenderer)
    (cursor_shape : CursorShape) (cell_percentage : ℝ) : CursorRenderer :=
  { r with
    corners := fun i =>
      let xy := STANDARD_CORNERS i
      { relative_position :=
          match cursor_shape with
          | CursorShape.Block => ⟨xy.1, xy.2⟩
          | CursorShape.Vertical => ⟨(xy.1 + 0.5) * cell_percentage - 0.5, xy.2⟩
          | CursorShape.Horizontal => ⟨xy.1, -((-xy.2 + 0.5) * cell_percentage - 0.5)⟩
        current_position := (r.corners i).current_position } }

/-- `CursorRenderer::new`. -/
noncomputable def CursorRenderer.new (now : ℕ) : CursorRenderer :=
  CursorRenderer.set_cursor_shape
    { corners := fun _ => Corner.new ⟨0, 0⟩
      blink_status := BlinkStatus.new now }
    CursorShape.Block ((DEFAULT_CELL_PERCENTAGE : ℚ) : ℝ)

/-- The closed four-corner polygon path built in `CursorRenderer::draw`
(`move_to`/`line_to`/`line_to`/`line_to`/`close`). -/
noncomputable def CursorRenderer.cornerPath (r : CursorRenderer) : List Point :=
  [(r.corners 0).current_position, (r.corners 1).current_position,
   (r.corners 2).current_position, (r.corners 3).current_position]

/-- One canvas side effect issued by `CursorRenderer::draw`: a path fill with
a paint color, a save, a clip to a path, a text-blob draw of one shaped
character at a point with a paint color, or a restore. -/
inductive CanvasOp where
  | drawPath : List Point → ℕ → CanvasOp
  | save : CanvasOp
  | clipPath : List Point → CanvasOp
  | drawTextBlob : Char → Point → ℕ → CanvasOp
  | restore : CanvasOp

/-- `CursorRenderer::draw`.  The external editor grid is modelled as a
function from the two `usize` indices to the optional `(character, style)`
cell; the canvas is reified as the returned `CanvasOp` trace; the returned
`animating` boolean is embedded as a proposition. -/
noncomputable def CursorRenderer.draw (r : CursorRenderer) (now : ℕ) (cursor : Cursor)
    (default_colors : Colors) (font_width font_height : ℝ)
    (grid : ℕ → ℕ → Option (Char × ℕ)) :
    CursorRenderer × List CanvasOp × Prop :=
  let blinkResult := r.blink_status.update_status now cursor
  let render := blinkResult.2
  let grid_x := cursor.position.1
  let grid_y := cursor.position.2
  let font_dimensions : Point := ⟨font_width, font_height⟩
  let destination : Point := ⟨(grid_x : ℝ) * font_width, (grid_y : ℝ) * font_height⟩
  let center_destination := destination.add (font_dimensions.smul 0.5)
  let r1 : CursorRenderer :=
    { (CursorRenderer.set_cursor_shape { r with blink_status := blinkResult.1 }
        cursor.shape ((cursor.cell_percentage.getD DEFAULT_CELL_PERCENTAGE : ℚ) : ℝ)) with
      blink_status := blinkResult.1 }
  let updated : Fin 4 → Corner × Prop :=
    fun i => (r1.corners i).update font_dimensions center_destination
  let r2 : CursorRenderer :=
    if center_destination.is_zero then r1 else { r1 with corners := fun i => (updated i).1 }
  let animating : Prop :=
    if center_destination.is_zero then False
    else (updated 0).2 ∨ (updated 1).2 ∨ (updated 2).2 ∨ (updated 3).2
  let ops : List CanvasOp :=
    if cursor.enabled && render then
      let path := r2.cornerPath
      let cursor_grid_y := cursor.position.1
      let cursor_grid_x := cursor.position.2
      let character := ((grid cursor_grid_x cursor_grid_y).map Prod.fst).getD ' '
      [CanvasOp.drawPath path (cursor.background default_colors),
       CanvasOp.save,
       CanvasOp.clipPath path,
       CanvasOp.drawTextBlob character destination (cursor.foreground default_colors),
       CanvasOp.restore]
    else []
  (r2, ops, animating)

/-- Fixture: a fresh blink scheduler with no recorded snapshot. -/
def sFix : BlinkStatus := BlinkStatus.new 0

/-- Fixture: a snapshot with blinking disabled (`blinkwait = Some(0)`). -/
def cFixZero : Cursor :=
  { position := (1, 2)
    shape := CursorShape.Block
    cell_percentage := none
    blinkwait := some 0
    blinkon := none
    blinkoff := none
    enabled := true }

/-- Fixture: a snapshot with all three blink durations positive. -/
def cFixBlink : Cursor :=
  { position := (0, 0)
    shape := CursorShape.Vertical
    cell_percentage := none
    blinkwait := some 5
    blinkon := some 3
    blinkoff := some 2
    enabled := true }

/-- Fixture: a renderer state with a fresh blink scheduler. -/
noncomputable def rFix : CursorRenderer :=
  { corners := fun _ => Corner.new ⟨0, 0⟩
    blink_status := BlinkStatus.new 0 }

/-- Fixture: default colors. -/
def colFix : Colors := ⟨1, 2⟩

/-- Fixture: an editor grid holding `z` at row 2, column 1. -/
def gridFix : ℕ → ℕ → Option (Char × ℕ) :=
  fun i j => if i = 2 ∧ j = 1 then some ('z', 0) else none

/-- Fixture: a corner at position (5,0) with relative offset (1/2,1/2). -/
noncomputable def cornerFix : Corner := ⟨⟨5, 0⟩, ⟨1/2, 1/2⟩⟩

/-- Fixture: cell dimensions 2 × 2. -/
noncomputable def fdFix : Point := ⟨2, 2⟩

/-- Fixture: a destination center at (4,0). -/
noncomputable def destFix : Point := ⟨4, 0⟩

/-- Fixture: a centered corner (zero relative offset) at the origin. -/
noncomputable def cornerC1 : Corner := ⟨⟨0, 0⟩, ⟨0, 0⟩⟩

/-- Fixture: cell dimensions 3 × 4. -/
noncomputable def fdC1 : Point := ⟨3, 4⟩

/-- Fixture: a destination center at (1/500, 0), i.e. 0.002 away from the
origin along the x axis. -/
noncomputable def destC1 : Point := ⟨1/500, 0⟩

/-! ## Supporting lemmas -/

lemma getD_map_false (o : Option ℕ) :
    (o.map (fun _ => false)).getD false = false := by
  cases o <;> rfl

/-! ## C2: zero blink duration forces visibility -/

/-- C2.  If any of `blinkwait`, `blinkoff`, `blinkon` is present and equal to
0, `update_status` returns `true` on every call, from any state and at any
time. -/
theorem blink_zero_duration_forces_visible (s : BlinkStatus) (now : ℕ) (c : Cursor)
    (h : c.blinkwait = some 0 ∨ c.blinkoff = some 0 ∨ c.blinkon = some 0) :
    (s.update_status now c).2 = true := by
  rcases h with h | h | h <;> simp [BlinkStatus.update_status, h]

theorem blink_zero_duration_forces_visible_witness :
    (cFixZero.blinkwait = some 0 ∨ cFixZero.blinkoff = some 0 ∨
        cFixZero.blinkon = some 0) ∧
      (sFix.update_status 5 cFixZero).2 = true :=
  ⟨Or.inl rfl, blink_zero_duration_forces_visible sFix 5 cFixZero (Or.inl rfl)⟩

/-! ## C3: a snapshot change resets the blink cycle -/

/-- C3.  Called with no previously recorded snapshot, or with a snapshot that
differs from the recorded one, `update_status` records the new snapshot,
resets the transition timestamp to the current instant, and sets the state to
`Waiting` when `blinkwait` is present and nonzero, else to `On`. -/
theorem blink_snapshot_change_resets (s : BlinkStatus) (now : ℕ) (c : Cursor)
    (h : s.previous_cursor = none ∨ some c ≠ s.previous_cursor) :
    (s.update_status now c).1.previous_cursor = some c ∧
      (s.update_status now c).1.last_transition = now ∧
      (s.update_status now c).1.state =
        (if c.blinkwait.isSome ∧ c.blinkwait ≠ some 0 then BlinkState.Waiting
         else BlinkState.On) := by
  unfold BlinkStatus.update_status
  rw [if_pos h]
  by_cases hB : c.blinkwait = some 0 ∨ c.blinkoff = some 0 ∨ c.blinkon = some 0
  · rw [if_pos hB]
    exact ⟨rfl, rfl, rfl⟩
  · rw [if_neg hB]
    simp [getD_map_false]

theorem blink_snapshot_change_resets_witness :
    (sFix.previous_cursor = none ∨ some cFixBlink ≠ sFix.previous_cursor) ∧
      ((sFix.update_status 5 cFixBlink).1.previous_cursor = some cFixBlink ∧
        (sFix.update_status 5 cFixBlink).1.last_transition = 5 ∧
        (sFix.update_status 5 cFixBlink).1.state =
          (if cFixBlink.blinkwait.isSome ∧ cFixBlink.blinkwait ≠ some 0 then
            BlinkState.Waiting
           else BlinkState.On)) :=
  ⟨Or.inl rfl, blink_snapshot_change_resets sFix 5 cFixBlink (Or.inl rfl)⟩

/-! ## C8: `Waiting` is only ever entered by the snapshot-change reset -/

/-- C8.  If a call leaves the scheduler in `Waiting`, then either the call was
a snapshot-change reset with `blinkwait` present and nonzero, or the snapshot
was unchanged, the prior state was already `Waiting`, and the call changed
nothing: the timed-expiry step (whose transitions are `Waiting→On`, `On→Off`,
`Off→On`) never produces `Waiting`, so with the snapshot held fixed there are
never two `Waiting` segments in a row. -/
theorem blink_waiting_only_from_reset (s : BlinkStatus) (now : ℕ) (c : Cursor)
    (hw : (s.update_status now c).1.state = BlinkState.Waiting) :
    ((s.previous_cursor = none ∨ some c ≠ s.previous_cursor) ∧
        c.blinkwait.isSome ∧ c.blinkwait ≠ some 0) ∨
      (s.previous_cursor = some c ∧ s.state = BlinkState.Waiting ∧
        (s.update_status now c).1 = s) := by
  unfold BlinkStatus.update_status at hw ⊢
  by_cases hA : s.previous_cursor = none ∨ some c ≠ s.previous_cursor
  · rw [if_pos hA] at hw
    left
    refine ⟨hA, ?_⟩
    by_contra hcond
    rw [if_neg hcond] at hw
    by_cases hB : c.blinkwait = some 0 ∨ c.blinkoff = some 0 ∨ c.blinkon = some 0
    · rw [if_pos hB] at hw
      simp at hw
    · rw [if_neg hB] at hw
      simp [getD_map_false] at hw
  · rw [if_neg hA] at hw ⊢
    have hprev : s.previous_cursor = some c := by
      push_neg at hA
      exact hA.2.symm
    right
    by_cases hB : c.blinkwait = some 0 ∨ c.blinkoff = some 0 ∨ c.blinkon = some 0
    · rw [if_pos hB] at hw ⊢
      exact ⟨hprev, hw, rfl⟩
    · rw [if_neg hB] at hw ⊢
      revert hw
      cases hs : s.state with
      | Waiting =>
        simp only [hs]
        split
        · intro hw
          simp at hw
        · intro hw
          exact ⟨hprev, trivial, rfl⟩
      | On =>
        simp only [hs]
        split
        · intro hw
          simp at hw
        · intro hw
          simp [hs] at hw
      | Off =>
        simp only [hs]
        split
        · intro hw
          simp at hw
        · intro hw
          simp [hs] at hw

theorem blink_waiting_only_from_reset_witness :
    (sFix.update_status 5 cFixBlink).1.state = BlinkState.Waiting ∧
      (((sFix.previous_cursor = none ∨ some cFixBlink ≠ sFix.previous_cursor) ∧
          cFixBlink.blinkwait.isSome ∧ cFixBlink.blinkwait ≠ some 0) ∨
        (sFix.previous_cursor = some cFixBlink ∧ sFix.state = BlinkState.Waiting ∧
          (sFix.update_status 5 cFixBlink).1 = sFix)) :=
  ⟨by decide, blink_waiting_only_from_reset sFix 5 cFixBlink (by decide)⟩

/-! ## C5: shape geometry -/

/-- C5.  For `cell_percentage = p` in `(0,1]`: `Block` keeps the unit-square
corners; `Vertical` maps each x to `(x+0.5)*p - 0.5` with y unchanged, so the
left edge stays at `-0.5` and the bar's width is `p`; `Horizontal` maps each
y to `-((-y+0.5)*p - 0.5)` with x unchanged, so the bottom edge stays at
`0.5` and the bar's height is `p`. -/
theorem set_cursor_shape_geometry (r : CursorRenderer) (p : ℝ)
    (hp0 : 0 < p) (hp1 : p ≤ 1) :
    (∀ i, ((r.set_cursor_shape CursorShape.Block p).corners i).relative_position =
        ⟨(STANDARD_CORNERS i).1, (STANDARD_CORNERS i).2⟩) ∧
      (∀ i, ((r.set_cursor_shape CursorShape.Vertical p).corners i).relative_position =
        ⟨((STANDARD_CORNERS i).1 + 0.5) * p - 0.5, (STANDARD_CORNERS i).2⟩) ∧
      (∀ i, ((r.set_cursor_shape CursorShape.Horizontal p).corners i).relative_position =
        ⟨(STANDARD_CORNERS i).1, -((-(STANDARD_CORNERS i).2 + 0.5) * p - 0.5)⟩) ∧
      ((r.set_cursor_shape CursorShape.Vertical p).corners 0).relative_position.x = -0.5 ∧
      ((r.set_cursor_shape CursorShape.Vertical p).corners 3).relative_position.x = -0.5 ∧
      ((r.set_cursor_shape CursorShape.Vertical p).corners 1).relative_position.x -
          ((r.set_cursor_shape CursorShape.Vertical p).corners 0).relative_position.x = p ∧
      ((r.set_cursor_shape CursorShape.Horizontal p).corners 3).relative_position.y = 0.5 ∧
      ((r.set_cursor_shape CursorShape.Horizontal p).corners 2).relative_position.y = 0.5 ∧
      ((r.set_cursor_shape CursorShape.Horizontal p).corners 3).relative_position.y -
          ((r.set_cursor_shape CursorShape.Horizontal p).corners 0).relative_position.y = p := by
  refine ⟨fun i => rfl, fun i => rfl, fun i => rfl, ?_, ?_, ?_, ?_, ?_, ?_⟩ <;>
      norm_num [CursorRenderer.set_cursor_shape, STANDARD_CORNERS]

theorem set_cursor_shape_geometry_witness :
    ((0 : ℝ) < 1/2 ∧ (1/2 : ℝ) ≤ 1) ∧
      (((rFix.set_cursor_shape CursorShape.Vertical (1/2)).corners 1).relative_position.x -
          ((rFix.set_cursor_shape CursorShape.Vertical (1/2)).corners 0).relative_position.x =
        1/2) :=
  ⟨⟨by norm_num, by norm_num⟩,
   (set_cursor_shape_geometry rFix (1/2) (by norm_num) (by norm_num)).2.2.2.2.2.1⟩

/-! ## Supporting lemmas about the corner animation -/

lemma Point.length_nonneg (p : Point) : 0 ≤ p.length :=
  Real.sqrt_nonneg _

lemma Point.length_smul (p : Point) (t : ℝ) : (p.smul t).length = |t| * p.length := by
  unfold Point.length Point.smul
  rw [show p.x * t * (p.x * t) + p.y * t * (p.y * t) = t ^ 2 * (p.x * p.x + p.y * p.y) by
      ring,
    Real.sqrt_mul (sq_nonneg t), Real.sqrt_sq_eq_abs]

/-- The delta left after one `Corner::update`: when the corner moves it is the
old delta scaled by `1 - motion_percentage`, otherwise it is unchanged. -/
lemma corner_update_delta (c : Corner) (fd dest : Point) :
    (Corner.update c fd dest).1.delta fd dest =
      if (c.delta fd dest).length > 0 then
        (c.delta fd dest).smul (1 - c.motion_percentage fd dest)
      else c.delta fd dest := by
  by_cases h : (c.delta fd dest).length > 0
  · rw [if_pos h]
    simp only [Corner.update, if_pos h]
    unfold Corner.delta Corner.corner_destination Corner.relative_scaled_position
      Point.add Point.sub Point.smul
    simp only [Point.mk.injEq]
    constructor <;> ring
  · rw [if_neg h]
    simp only [Corner.update, if_neg h]

lemma corner_update_snd (c : Corner) (fd dest : Point) :
    (Corner.update c fd dest).2 = ((c.delta fd dest).length > 0.001) :=
  rfl

/-- Arithmetic core of the directional-scalar bound. -/
lemma abs_div_div_le_half (A L F : ℝ) (hL : 0 < L) (hF : 0 < F)
    (hsq : A * A ≤ ((1/2) * (L * F)) * ((1/2) * (L * F))) :
    |A / L / F| ≤ 1/2 := by
  have hpos : 0 < (1/2) * (L * F) := by positivity
  have hkey : |A| ≤ (1/2) * (L * F) := by
    rw [abs_le]
    constructor
    · nlinarith [hsq, hpos, sq_nonneg (A + (1/2) * (L * F))]
    · nlinarith [hsq, hpos, sq_nonneg (A - (1/2) * (L * F))]
  rw [div_div, abs_div, abs_of_pos (mul_pos hL hF), div_le_iff (mul_pos hL hF)]
  linarith [hkey]


/-- Cauchy–Schwarz plus the bound on the relative offsets confines the
directional scalar to `[-1/2, 1/2]`. -/
lemma abs_motion_scale_le_half (c : Corner) (fd dest : Point)
    (hx : |c.relative_position.x| ≤ 1/2) (hy : |c.relative_position.y| ≤ 1/2) :
    |c.motion_scale fd dest| ≤ 1/2 := by
  unfold Corner.motion_scale
  set A := (c.delta fd dest).dot (c.relative_scaled_position fd) with hA
  set L := (c.delta fd dest).length with hLdef
  set F := fd.length with hFdef
  by_cases hF0 : F = 0
  · rw [hF0, div_zero, abs_zero]
    norm_num
  by_cases hL0 : L = 0
  · rw [hL0, div_zero, zero_div, abs_zero]
    norm_num
  have hFnn : 0 ≤ F := by
    rw [hFdef]
    exact Real.sqrt_nonneg _
  have hLnn : 0 ≤ L := by
    rw [hLdef]
    exact Real.sqrt_nonneg _
  have hFpos : 0 < F := lt_of_le_of_ne hFnn (Ne.symm hF0)
  have hLpos : 0 < L := lt_of_le_of_ne hLnn (Ne.symm hL0)
  have hL2 : L * L = (c.delta fd dest).x * (c.delta fd dest).x +
      (c.delta fd dest).y * (c.delta fd dest).y := by
    rw [hLdef]
    exact Real.mul_self_sqrt (add_nonneg (mul_self_nonneg _) (mul_self_nonneg _))
  have hF2 : F * F = fd.x * fd.x + fd.y * fd.y := by
    rw [hFdef]
    exact Real.mul_self_sqrt (add_nonneg (mul_self_nonneg _) (mul_self_nonneg _))
  have hax := abs_le.mp hx
  have hay := abs_le.mp hy
  have hRbound : (c.relative_scaled_position fd).x * (c.relative_scaled_position fd).x +
      (c.relative_scaled_position fd).y * (c.relative_scaled_position fd).y ≤
        (1/4) * (fd.x * fd.x + fd.y * fd.y) := by
    show c.relative_position.x * fd.x * (c.relative_position.x * fd.x) +
        c.relative_position.y * fd.y * (c.relative_position.y * fd.y) ≤ _
    have h1 : c.relative_position.x * c.relative_position.x ≤ 1/4 := by
      nlinarith [hax.1, hax.2]
    have h2 : c.relative_position.y * c.relative_position.y ≤ 1/4 := by
      nlinarith [hay.1, hay.2]
    nlinarith [mul_le_mul_of_nonneg_right h1 (mul_self_nonneg fd.x),
      mul_le_mul_of_nonneg_right h2 (mul_self_nonneg fd.y)]
  have hCS : A * A ≤
      ((c.delta fd dest).x * (c.delta fd dest).x +
        (c.delta fd dest).y * (c.delta fd dest).y) *
      ((c.relative_scaled_position fd).x * (c.relative_scaled_position fd).x +
        (c.relative_scaled_position fd).y * (c.relative_scaled_position fd).y) := by
    rw [hA]
    unfold Point.dot
    nlinarith [sq_nonneg ((c.delta fd dest).x * (c.relative_scaled_position fd).y -
      (c.delta fd dest).y * (c.relative_scaled_position fd).x)]
  have hDnn : 0 ≤ (c.delta fd dest).x * (c.delta fd dest).x +
      (c.delta fd dest).y * (c.delta fd dest).y :=
    add_nonneg (mul_self_nonneg _) (mul_self_nonneg _)
  have step1 : A * A ≤
      ((c.delta fd dest).x * (c.delta fd dest).x +
        (c.delta fd dest).y * (c.delta fd dest).y) *
      ((1/4) * (fd.x * fd.x + fd.y * fd.y)) :=
    le_trans hCS (mul_le_mul_of_nonneg_left hRbound hDnn)
  have step2 : ((c.delta fd dest).x * (c.delta fd dest).x +
        (c.delta fd dest).y * (c.delta fd dest).y) *
      ((1/4) * (fd.x * fd.x + fd.y * fd.y)) =
        ((1/2) * (L * F)) * ((1/2) * (L * F)) := by
    rw [← hL2, ← hF2]
    ring
  have hsq : A * A ≤ ((1/2) * (L * F)) * ((1/2) * (L * F)) := step2 ▸ step1
  exact abs_div_div_le_half A L F hLpos hFpos hsq

lemma motion_percentage_bounds (c : Corner) (fd dest : Point)
    (hx : |c.relative_position.x| ≤ 1/2) (hy : |c.relative_position.y| ≤ 1/2) :
    9/20 ≤ c.motion_percentage fd dest ∧ c.motion_percentage fd dest ≤ 19/20 := by
  have h := abs_le.mp (abs_motion_scale_le_half c fd dest hx hy)
  have e1 : MOTION_PERCENTAGE_SPREAD = 1/2 := by norm_num [MOTION_PERCENTAGE_SPREAD]
  have e2 : AVERAGE_MOTION_PERCENTAGE = 7/10 := by norm_num [AVERAGE_MOTION_PERCENTAGE]
  unfold Corner.motion_percentage
  rw [e1, e2]
  constructor <;> linarith [h.1, h.2]

/-! ## Fixture evaluation lemmas -/

lemma cornerFix_delta : cornerFix.delta fdFix destFix = ⟨0, 1⟩ := by
  norm_num [cornerFix, fdFix, destFix, Corner.delta, Corner.corner_destination,
    Corner.relative_scaled_position, Point.add, Point.sub, Point.mk.injEq]

lemma cornerFix_delta_length : (cornerFix.delta fdFix destFix).length = 1 := by
  rw [cornerFix_delta]
  show Real.sqrt ((0:ℝ) * 0 + 1 * 1) = 1
  rw [show ((0:ℝ) * 0 + 1 * 1) = 1 by norm_num]
  exact Real.sqrt_one

lemma cornerC1_delta : cornerC1.delta fdC1 destC1 = ⟨1/500, 0⟩ := by
  norm_num [cornerC1, fdC1, destC1, Corner.delta, Corner.corner_destination,
    Corner.relative_scaled_position, Point.add, Point.sub, Point.mk.injEq]

lemma cornerC1_delta_length : (cornerC1.delta fdC1 destC1).length = 1/500 := by
  rw [cornerC1_delta]
  show Real.sqrt ((1/500 : ℝ) * (1/500) + 0 * 0) = 1/500
  rw [show ((1:ℝ)/500 * (1/500) + 0 * 0) = (1/500)^2 by ring]
  exact Real.sqrt_sq (by norm_num)

lemma cornerC1_percentage : cornerC1.motion_percentage fdC1 destC1 = 0.7 := by
  unfold Corner.motion_percentage Corner.motion_scale
  have hdot : (cornerC1.delta fdC1 destC1).dot (cornerC1.relative_scaled_position fdC1) = 0 := by
    norm_num [cornerC1_delta, cornerC1, fdC1, Corner.relative_scaled_position, Point.dot]
  rw [hdot, zero_div, zero_div]
  norm_num [MOTION_PERCENTAGE_SPREAD, AVERAGE_MOTION_PERCENTAGE]

/-! ## C6: the motion percentage stays within [0.2, 1.2] -/

/-- C6.  When the delta is nonzero, the relative offsets lie in `[-1/2,1/2]`
and the cell dimensions are nonzero, the motion percentage computed by
`Corner::update` lies within `[0.2, 1.2]`. -/
theorem motion_percentage_in_range (c : Corner) (fd dest : Point)
    (hx : |c.relative_position.x| ≤ 1/2) (hy : |c.relative_position.y| ≤ 1/2)
    (hfx : fd.x ≠ 0) (hfy : fd.y ≠ 0)
    (hdelta : 0 < (c.delta fd dest).length) :
    1/5 ≤ c.motion_percentage fd dest ∧ c.motion_percentage fd dest ≤ 6/5 := by
  have h := motion_percentage_bounds c fd dest hx hy
  exact ⟨by linarith [h.1], by linarith [h.2]⟩

theorem motion_percentage_in_range_witness :
    (|cornerFix.relative_position.x| ≤ 1/2 ∧ |cornerFix.relative_position.y| ≤ 1/2 ∧
        fdFix.x ≠ 0 ∧ fdFix.y ≠ 0 ∧ 0 < (cornerFix.delta fdFix destFix).length) ∧
      (1/5 ≤ cornerFix.motion_percentage fdFix destFix ∧
        cornerFix.motion_percentage fdFix destFix ≤ 6/5) := by
  have hx : |cornerFix.relative_position.x| ≤ 1/2 := by norm_num [cornerFix, abs_le]
  have hy : |cornerFix.relative_position.y| ≤ 1/2 := by norm_num [cornerFix, abs_le]
  have hfx : fdFix.x ≠ 0 := by norm_num [fdFix]
  have hfy : fdFix.y ≠ 0 := by norm_num [fdFix]
  have hd : 0 < (cornerFix.delta fdFix destFix).length := by
    rw [cornerFix_delta_length]
    norm_num
  exact ⟨⟨hx, hy, hfx, hfy, hd⟩,
    motion_percentage_in_range cornerFix fdFix destFix hx hy hfx hfy hd⟩

/-! ## C4: the distance to the target is non-increasing and the flag clears -/

/-- C4.  For a corner whose relative offsets lie in `[-1/2,1/2]`, one
`Corner::update` call never increases the distance to the target, strictly
decreases it while it is positive, and reports not-animating whenever the
distance is already at most `0.001`. -/
theorem corner_update_distance_decreases (c : Corner) (fd dest : Point)
    (hx : |c.relative_position.x| ≤ 1/2) (hy : |c.relative_position.y| ≤ 1/2) :
    ((Corner.update c fd dest).1.delta fd dest).length ≤ (c.delta fd dest).length ∧
      (0 < (c.delta fd dest).length →
        ((Corner.update c fd dest).1.delta fd dest).length < (c.delta fd dest).length) ∧
      ((c.delta fd dest).length ≤ 0.001 → ¬ (Corner.update c fd dest).2) := by
  have hmp := motion_percentage_bounds c fd dest hx hy
  have habs : |1 - c.motion_percentage fd dest| ≤ 11/20 := by
    rw [abs_le]
    constructor <;> linarith [hmp.1, hmp.2]
  by_cases h : (c.delta fd dest).length > 0
  · have heq : ((Corner.update c fd dest).1.delta fd dest).length =
        |1 - c.motion_percentage fd dest| * (c.delta fd dest).length := by
      rw [corner_update_delta, if_pos h, Point.length_smul]
    have hmul := mul_le_mul_of_nonneg_right habs (le_of_lt h)
    refine ⟨?_, fun _ => ?_, fun hsmall => ?_⟩
    · rw [heq]
      linarith [hmul, h]
    · rw [heq]
      linarith [hmul, h]
    · rw [corner_update_snd]
      exact not_lt.mpr hsmall
  · have heq : (Corner.update c fd dest).1.delta fd dest = c.delta fd dest := by
      rw [corner_update_delta, if_neg h]
    refine ⟨le_of_eq (by rw [heq]), fun hpos => absurd hpos h, fun hsmall => ?_⟩
    rw [corner_update_snd]
    exact not_lt.mpr hsmall

theorem corner_update_distance_decreases_witness :
    (|cornerFix.relative_position.x| ≤ 1/2 ∧ |cornerFix.relative_position.y| ≤ 1/2) ∧
      (((Corner.update cornerFix fdFix destFix).1.delta fdFix destFix).length ≤
          (cornerFix.delta fdFix destFix).length ∧
        (0 < (cornerFix.delta fdFix destFix).length →
          ((Corner.update cornerFix fdFix destFix).1.delta fdFix destFix).length <
            (cornerFix.delta fdFix destFix).length) ∧
        ((cornerFix.delta fdFix destFix).length ≤ 0.001 →
          ¬ (Corner.update cornerFix fdFix destFix).2)) := by
  have hx : |cornerFix.relative_position.x| ≤ 1/2 := by norm_num [cornerFix, abs_le]
  have hy : |cornerFix.relative_position.y| ≤ 1/2 := by norm_num [cornerFix, abs_le]
  exact ⟨⟨hx, hy⟩, corner_update_distance_decreases cornerFix fdFix destFix hx hy⟩

/-! ## C1: the animating flag is computed from the pre-update delta -/

/-- C1 (counterexample to the claim as stated).  At a concrete input the call
reports still-animating although the resulting post-update distance to the
target is at most 0.001: the returned flag uses the delta taken before the
position update, not the resulting distance. -/
theorem corner_update_flag_counterexample :
    (Corner.update cornerC1 fdC1 destC1).2 ∧
      ¬ (0.001 < ((Corner.update cornerC1 fdC1 destC1).1.delta fdC1 destC1).length) := by
  have hpos : (cornerC1.delta fdC1 destC1).length > 0 := by
    rw [cornerC1_delta_length]
    norm_num
  constructor
  · rw [corner_update_snd, cornerC1_delta_length]
    norm_num
  · rw [corner_update_delta, if_pos hpos, Point.length_smul, cornerC1_delta_length,
      cornerC1_percentage]
    rw [show |1 - (0.7:ℝ)| = 3/10 by
      rw [show (1:ℝ) - 0.7 = 3/10 by norm_num]
      exact abs_of_pos (by norm_num)]
    norm_num

/-- C1 (amended).  If the delta has zero length the corner is unchanged and
the call reports not-animating; otherwise the call reports still-animating
exactly when the PRE-update distance to the target (the delta's length)
exceeds 0.001. -/
theorem corner_update_flag_from_initial_delta (c : Corner) (fd dest : Point) :
    ((c.delta fd dest).length = 0 →
        (Corner.update c fd dest).1 = c ∧ ¬ (Corner.update c fd dest).2) ∧
      ((Corner.update c fd dest).2 ↔ 0.001 < (c.delta fd dest).length) := by
  constructor
  · intro h0
    constructor
    · simp only [Corner.update]
      rw [if_neg (by rw [h0]; exact lt_irrefl 0)]
    · rw [corner_update_snd, h0]
      norm_num
  · rw [corner_update_snd]

theorem corner_update_flag_from_initial_delta_witness :
    (cornerC1.delta fdC1 ⟨0, 0⟩).length = 0 ∧
      ((Corner.update cornerC1 fdC1 ⟨0, 0⟩).1 = cornerC1 ∧
        ¬ (Corner.update cornerC1 fdC1 ⟨0, 0⟩).2) ∧
      ((Corner.update cornerC1 fdC1 ⟨0, 0⟩).2 ↔
        0.001 < (cornerC1.delta fdC1 ⟨0, 0⟩).length) := by
  have hd : cornerC1.delta fdC1 ⟨0, 0⟩ = ⟨0, 0⟩ := by
    norm_num [cornerC1, fdC1, Corner.delta, Corner.corner_destination,
      Corner.relative_scaled_position, Point.add, Point.sub, Point.mk.injEq]
  have h0 : (cornerC1.delta fdC1 ⟨0, 0⟩).length = 0 := by
    rw [hd]
    show Real.sqrt ((0:ℝ) * 0 + 0 * 0) = 0
    rw [show ((0:ℝ) * 0 + 0 * 0) = 0 by norm_num]
    exact Real.sqrt_zero
  exact ⟨h0, (corner_update_flag_from_initial_delta cornerC1 fdC1 ⟨0, 0⟩).1 h0,
    (corner_update_flag_from_initial_delta cornerC1 fdC1 ⟨0, 0⟩).2⟩

/-! ## C7: both delta computations agree -/

/-- C7.  The target is computed once and both delta computations use the
pre-update position, so `Corner::update` is exactly the single-delta form:
the new position is the old one plus `(target - old) * motion_percentage`. -/
theorem corner_update_single_delta_equiv (c : Corner) (fd dest : Point) :
    Corner.update c fd dest = Corner.updateSingleDelta c fd dest ∧
      (0 < (c.delta fd dest).length →
        (Corner.update c fd dest).1.current_position =
          c.current_position.add
            (((c.corner_destination fd dest).sub c.current_position).smul
              (c.motion_percentage fd dest))) := by
  refine ⟨rfl, fun h => ?_⟩
  simp only [Corner.update]
  rw [if_pos h]
  rfl

theorem corner_update_single_delta_equiv_witness :
    0 < (cornerFix.delta fdFix destFix).length ∧
      (Corner.update cornerFix fdFix destFix).1.current_position =
        cornerFix.current_position.add
          (((cornerFix.corner_destination fdFix destFix).sub
              cornerFix.current_position).smul
            (cornerFix.motion_percentage fdFix destFix)) := by
  have h : 0 < (cornerFix.delta fdFix destFix).length := by
    rw [cornerFix_delta_length]
    norm_num
  exact ⟨h, (corner_update_single_delta_equiv cornerFix fdFix destFix).2 h⟩

/-! ## C9: draw gating -/

/-- C9.  `draw` issues zero canvas calls when the cursor is disabled or blink
visibility is false; otherwise it issues exactly one fill of the closed
four-corner path in the background color, then one glyph draw at the
destination clipped to that path in the foreground color, and removes the
clip. -/
theorem draw_gating (r : CursorRenderer) (now : ℕ) (cursor : Cursor)
    (colors : Colors) (fw fh : ℝ) (grid : ℕ → ℕ → Option (Char × ℕ)) :
    ((cursor.enabled = false ∨ (r.blink_status.update_status now cursor).2 = false) →
        (r.draw now cursor colors fw fh grid).2.1 = []) ∧
      ((cursor.enabled = true ∧ (r.blink_status.update_status now cursor).2 = true) →
        (r.draw now cursor colors fw fh grid).2.1 =
          [CanvasOp.drawPath ((r.draw now cursor colors fw fh grid).1.cornerPath)
            (cursor.background colors),
           CanvasOp.save,
           CanvasOp.clipPath ((r.draw now cursor colors fw fh grid).1.cornerPath),
           CanvasOp.drawTextBlob
             (((grid cursor.position.2 cursor.position.1).map Prod.fst).getD ' ')
             ⟨(cursor.position.1 : ℝ) * fw, (cursor.position.2 : ℝ) * fh⟩
             (cursor.foreground colors),
           CanvasOp.restore]) := by
  constructor
  · intro h
    have hcond : (cursor.enabled && (r.blink_status.update_status now cursor).2) = false := by
      rcases h with h | h <;> simp [h]
    simp [CursorRenderer.draw, hcond]
  · rintro ⟨he, hr⟩
    have hcond : (cursor.enabled && (r.blink_status.update_status now cursor).2) = true := by
      simp [he, hr]
    simp [CursorRenderer.draw, hcond, CursorRenderer.cornerPath]

theorem draw_gating_witness :
    (cFixZero.enabled = true ∧ (rFix.blink_status.update_status 5 cFixZero).2 = true) ∧
      (rFix.draw 5 cFixZero colFix 1 1 gridFix).2.1 =
        [CanvasOp.drawPath ((rFix.draw 5 cFixZero colFix 1 1 gridFix).1.cornerPath)
          (cFixZero.background colFix),
         CanvasOp.save,
         CanvasOp.clipPath ((rFix.draw 5 cFixZero colFix 1 1 gridFix).1.cornerPath),
         CanvasOp.drawTextBlob
           (((gridFix cFixZero.position.2 cFixZero.position.1).map Prod.fst).getD ' ')
           ⟨(cFixZero.position.1 : ℝ) * 1, (cFixZero.position.2 : ℝ) * 1⟩
           (cFixZero.foreground colFix),
         CanvasOp.restore] :=
  ⟨⟨rfl, by decide⟩,
   (draw_gating rFix 5 cFixZero colFix 1 1 gridFix).2 ⟨rfl, by decide⟩⟩

/-! ## C10: the two uses of cursor.position swap component order -/

/-- C10.  With `position = (a, b)` the pixel destination of the glyph draw is
`(a * cell_width, b * cell_height)` while the glyph character is read from
`grid[b][a]` (components swapped), defaulting to a space when the cell is
empty. -/
theorem draw_position_component_swap (r : CursorRenderer) (now : ℕ) (cursor : Cursor)
    (colors : Colors) (fw fh : ℝ) (grid : ℕ → ℕ → Option (Char × ℕ)) (a b : ℕ)
    (hpos : cursor.position = (a, b))
    (hen : cursor.enabled = true)
    (hrender : (r.blink_status.update_status now cursor).2 = true) :
    ∃ path : List Point,
      (r.draw now cursor colors fw fh grid).2.1 =
        [CanvasOp.drawPath path (cursor.background colors),
         CanvasOp.save,
         CanvasOp.clipPath path,
         CanvasOp.drawTextBlob (((grid b a).map Prod.fst).getD ' ')
           ⟨(a : ℝ) * fw, (b : ℝ) * fh⟩
           (cursor.foreground colors),
         CanvasOp.restore] := by
  refine ⟨(r.draw now cursor colors fw fh grid).1.cornerPath, ?_⟩
  have hcond : (cursor.enabled && (r.blink_status.update_status now cursor).2) = true := by
    simp [hen, hrender]
  simp [CursorRenderer.draw, hcond, hpos, CursorRenderer.cornerPath]

theorem draw_position_component_swap_witness :
    (cFixZero.position = (1, 2) ∧ cFixZero.enabled = true ∧
        (rFix.blink_status.update_status 5 cFixZero).2 = true) ∧
      (∃ path : List Point,
        (rFix.draw 5 cFixZero colFix 1 1 gridFix).2.1 =
          [CanvasOp.drawPath path (cFixZero.background colFix),
           CanvasOp.save,
           CanvasOp.clipPath path,
           CanvasOp.drawTextBlob (((gridFix 2 1).map Prod.fst).getD ' ')
             ⟨((1 : ℕ) : ℝ) * 1, ((2 : ℕ) : ℝ) * 1⟩
             (cFixZero.foreground colFix),
           CanvasOp.restore]) :=
  ⟨⟨rfl, rfl, by decide⟩,
   draw_position_component_swap rFix 5 cFixZero colFix 1 1 gridFix 1 2 rfl rfl (by decide)⟩

end Neovide
